import Mathlib

/-!
Verification development for the ArunaStorage DataProxy repository.

The definitions below are a shallow embedding of the repository's core:
the authentication handler (`src/auth/auth.rs`), the access gate
(`handle_object` and its helpers), and the pull-replication engine
(`src/replication/replication_handler.rs`).  Rust machine integers are
modelled as `Nat`/`Int`, fallible code as `Except`/`Option`, channels as
lists of the messages they deliver, and the Rust panics of
`Intent::deserialize` / `From<u8> for Action` as an explicit `panicked`
constructor.  External collaborators (the `ulid` crate's Crockford
base32 codec, `jsonwebtoken` validation, the `aruna_file` transformer
pipeline) are modelled by their documented contracts; parts of the
repository that are not among the provided sources (`structs.rs`,
`helpers.rs`, `auth_helpers.rs`) are modelled from the specification and
say so in their doc comments.
-/

namespace DataProxy

/-! ## Rust `str::split(char)` -/

/-- Model of Rust's `str.split(sep)` for a one-character separator, over the
character list of the string: every occurrence of `sep` separates two
(possibly empty) pieces, so the result always has one more piece than there
are separators.  `"".split(sep)` yields `[""]`. -/
def rust_split_char (sep : Char) : List Char → List (List Char)
  | [] => [[]]
  | c :: rest =>
    if c = sep then [] :: rust_split_char sep rest
    else
      match rust_split_char sep rest with
      | [] => [[c]]
      | p :: ps => (c :: p) :: ps

/-! ## Rust integer parsing (`u8::from_str`, `i32::from_str`) -/

/-- The numeric value of a list of decimal digit characters; `none` when the
list is empty or holds a non-digit. -/
def parse_digits (cs : List Char) : Option Nat :=
  if cs ≠ [] ∧ cs.all Char.isDigit then
    some (cs.foldl (fun a c => a * 10 + (c.toNat - '0'.toNat)) 0)
  else none

/-- Model of Rust's `u8::from_str`: an optional sign, then decimal digits;
`-` only parses when the value is zero (`checked_sub` from 0), and a value
over `u8::MAX` is a `PosOverflow` error (`none`). -/
def u8_from_str (cs : List Char) : Option Nat :=
  match cs with
  | '+' :: rest => (parse_digits rest).bind (fun v => if v ≤ 255 then some v else none)
  | '-' :: rest => (parse_digits rest).bind (fun v => if v = 0 then some 0 else none)
  | _ => (parse_digits cs).bind (fun v => if v ≤ 255 then some v else none)

/-- Model of Rust's `i32::from_str`: optional sign, decimal digits, checked
against the `i32` range. -/
def i32_from_str (cs : List Char) : Option Int :=
  match cs with
  | '+' :: rest =>
    (parse_digits rest).bind (fun v => if v ≤ 2147483647 then some (v : Int) else none)
  | '-' :: rest =>
    (parse_digits rest).bind (fun v => if v ≤ 2147483648 then some (-(v : Int)) else none)
  | _ => (parse_digits cs).bind (fun v => if v ≤ 2147483647 then some (v : Int) else none)

/-! ## ULID Crockford base32 codec

`DieselUlid` wraps the `ulid` crate: a ULID is a 128-bit value whose
canonical string form is 26 characters of the Crockford base32 alphabet
(digits and uppercase letters without I, L, O, U), most significant digit
first; since `26 * 5 = 130 > 128`, the first character of a canonical
string encodes a value below 8.  A ULID is modelled as its `Nat` value. -/

/-- The 32 characters of the Crockford base32 alphabet, in digit order. -/
def ulid_alphabet : List Char :=
  ['0', '1', '2', '3', '4', '5', '6', '7', '8', '9',
   'A', 'B', 'C', 'D', 'E', 'F', 'G', 'H', 'J', 'K',
   'M', 'N', 'P', 'Q', 'R', 'S', 'T', 'V', 'W', 'X', 'Y', 'Z']

/-- Position of a character in an alphabet tail whose first entry has
digit value `k`. -/
def decode_digit_aux : List Char → Nat → Char → Option Nat
  | [], _, _ => none
  | a :: rest, k, c => if c = a then some k else decode_digit_aux rest (k + 1) c

/-- The digit value of a canonical Crockford base32 character: its
position in the alphabet. -/
def decode_digit (c : Char) : Option Nat := decode_digit_aux ulid_alphabet 0 c

/-- The canonical character of a base32 digit. -/
def encode_digit (n : Nat) : Char := ulid_alphabet.getD n '0'

/-- The digit values of a character list, `none` if any character is not a
canonical base32 character. -/
def digit_vals (cs : List Char) : Option (List Nat) := cs.mapM decode_digit

/-- The value of a big-endian list of base32 digits. -/
def val_of_digits (ds : List Nat) : Nat := ds.foldl (fun a d => a * 32 + d) 0

/-- The `len` low-order base32 digits of `n`, big-endian. -/
def ulid_encode_digits : Nat → Nat → List Nat
  | _, 0 => []
  | n, l + 1 => ulid_encode_digits (n / 32) l ++ [n % 32]

/-- Model of the `ulid` crate's string decoder: 26 canonical characters,
folded most-significant-first into a 128-bit value (bits shifted past the
top are discarded, as the crate's `<< 5` accumulation discards them). -/
def ulid_decode_chars (cs : List Char) : Option Nat :=
  if cs.length = 26 then (digit_vals cs).map (fun ds => val_of_digits ds % 2 ^ 128)
  else none

/-- Model of the `ulid` crate's `Display`: the 26-character canonical
big-endian Crockford base32 form of the value. -/
def ulid_to_chars (n : Nat) : List Char := (ulid_encode_digits n 26).map encode_digit

/-- `Display` for `DieselUlid`, as a `String`. -/
def ulid_to_string (n : Nat) : String := String.mk (ulid_to_chars n)

/-- A canonical ULID string: 26 canonical base32 characters whose leading
digit is below 8 (so the value fits in 128 bits). -/
def ulid_canonical (cs : List Char) : Bool :=
  cs.length = 26 &&
    (match digit_vals cs with
     | some (d :: _) => decide (d < 8)
     | _ => false)

/-! ## `src/auth/auth.rs`: `Action`, `Intent` and its serde impls -/

/-- The `Action` enum of `src/auth/auth.rs` (intent taxonomy:
`All=0, CreateSecrets=1, Impersonate=2, FetchInfo=3, DpExchange=4`). -/
inductive Action
  | All
  | CreateSecrets
  | Impersonate
  | FetchInfo
  | DpExchange
deriving DecidableEq

/-- `self.action.clone() as u8` of `impl Serialize for Intent`. -/
def action_to_u8 : Action → Nat
  | .All => 0
  | .CreateSecrets => 1
  | .Impersonate => 2
  | .FetchInfo => 3
  | .DpExchange => 4

/-- `impl From<u8> for Action`.  The Rust `match` panics with
`"Invalid action"` on any byte outside `0..=4`; the panic is modelled as
`none`. -/
def action_from_u8 (n : Nat) : Option Action :=
  match n with
  | 0 => some .All
  | 1 => some .CreateSecrets
  | 2 => some .Impersonate
  | 3 => some .FetchInfo
  | 4 => some .DpExchange
  | _ => none

/-- The `Intent` struct: `{ target: DieselUlid, action: Action }`. -/
structure IntentS where
  target : Nat
  action : Action
deriving DecidableEq

/-- `impl Serialize for Intent`:
`format!("{}_{:?}", self.target, self.action.clone() as u8)`. -/
def intent_serialize (i : IntentS) : String :=
  ulid_to_string i.target ++ "_" ++ toString (action_to_u8 i.action)

/-- Outcome of `Intent::deserialize`: a value, a serde error, or a Rust
panic (`split[1]` out of bounds, or `Action::from`'s
`panic!("Invalid action")`). -/
inductive DeserResult
  | ok (intent : IntentS)
  | err (msg : String)
  | panicked (msg : String)
deriving DecidableEq

/-- `impl Deserialize for Intent` over the character list of the input
string: `temp.split('_')`, then the struct literal's fields in written
order.  `target: DieselUlid::from_str(split[0]).map_err(..)?` is evaluated
first (the split is never empty, so `split[0]` exists) and its `?`
early-returns the serde error `"Invalid UUID"`; only then is `split[1]`
indexed — panicking when the split has a single piece — and
`u8::from_str(split[1])?` parsed, after which `Action::from` panics on a
byte outside `0..=4`.  (The empty-split arm is unreachable: `split`
always yields at least one piece; it stands for the `split[0]` panic that
would occur there.) -/
def intent_deserialize_chars (cs : List Char) : DeserResult :=
  match rust_split_char '_' cs with
  | [] => .panicked "index out of bounds"
  | p0 :: rest =>
    match ulid_decode_chars p0 with
    | none => .err "Invalid UUID"
    | some t =>
      match rest with
      | [] => .panicked "index out of bounds"
      | p1 :: _ =>
        match u8_from_str p1 with
        | none => .err "Invalid Action"
        | some b =>
          match action_from_u8 b with
          | some a => .ok ⟨t, a⟩
          | none => .panicked "Invalid action"

/-- `Intent::deserialize` on a `String`. -/
def intent_deserialize (s : String) : DeserResult := intent_deserialize_chars s.data

/-! ## `src/auth/auth.rs`: token verification and `check_permissions` -/

/-- The claim set of `ArunaTokenClaims` (`iss, sub, exp, aud, tid?, it?`). -/
structure ArunaTokenClaims where
  iss : String
  sub : String
  exp : Nat
  aud : String
  tid : Option String
  it : Option IntentS
deriving DecidableEq

/-- A received JWT, abstracted from its wire form: the header's `kid`, the
identity of the Ed25519 keypair whose private half signed it, and its
claims. -/
structure TokenModel where
  kid : Option String
  signed_key : Int
  claims : ArunaTokenClaims
deriving DecidableEq

/-- `AuthHandler::extract_claims`: `jsonwebtoken::decode` with algorithm
EdDSA and `validation.set_audience(&["proxy"])`.  Decoding succeeds exactly
when the signature matches the decoding key, the token is unexpired
(spec: `t.exp > now`), and the audience claim is `"proxy"`. -/
def extract_claims (dec_key : Int) (now : Nat) (t : TokenModel) :
    Except String ArunaTokenClaims :=
  if t.signed_key ≠ dec_key then .error "InvalidSignature"
  else if t.claims.exp ≤ now then .error "ExpiredSignature"
  else if t.claims.aud ≠ "proxy" then .error "InvalidAudience"
  else .ok t.claims

/-- The verification prefix of `AuthHandler::check_permissions`
(lines 151-169): `decode_header(token)?.kid`, `i32::from_str(&kid)`,
`cache.get_pubkey(serial)` (the cache maps a serial to the identity of the
key it stores), then `extract_claims`. -/
def verify_inbound (cache : Int → Option Int) (now : Nat) (t : TokenModel) :
    Except String ArunaTokenClaims :=
  match t.kid with
  | none => .error "Unspecified kid"
  | some kid_str =>
    match i32_from_str kid_str.data with
    | none => .error "invalid kid"
    | some serial =>
      match cache serial with
      | none => .error "Pubkey not found"
      | some dec_key => extract_claims dec_key now t

/-- `AuthHandler::check_permissions` (lines 151-205): verify the token,
then dispatch on the intent claim.  `All` is accepted regardless of target;
`CreateSecrets` and `DpExchange` require `it.target == self_id`
(`DpExchange` drops the `tid`); `Impersonate` and `FetchInfo` fall into the
wildcard arm and are rejected; no intent means an ordinary user token. -/
def check_permissions (cache : Int → Option Int) (self_id : Nat) (now : Nat)
    (t : TokenModel) : Except String (Nat × Option String) :=
  match verify_inbound cache now t with
  | .error e => .error e
  | .ok claims =>
    match claims.it with
    | none =>
      match ulid_decode_chars claims.sub.data with
      | none => .error "Invalid sub"
      | some sub => .ok (sub, claims.tid)
    | some it =>
      match it.action with
      | .All =>
        match ulid_decode_chars claims.sub.data with
        | none => .error "Invalid sub"
        | some sub => .ok (sub, claims.tid)
      | .CreateSecrets =>
        if it.target = self_id then
          match ulid_decode_chars claims.sub.data with
          | none => .error "Invalid sub"
          | some sub => .ok (sub, claims.tid)
        else .error "Token is not valid for this Dataproxy"
      | .DpExchange =>
        if it.target = self_id then
          match ulid_decode_chars claims.sub.data with
          | none => .error "Invalid sub"
          | some sub => .ok (sub, none)
        else .error "Token is not valid for this Dataproxy"
      | _ => .error "Action not allowed for Dataproxy"

/-! ## `src/auth/auth.rs`: `get_token_from_md` -/

/-- `get_token_from_md` (lines 604-631): the `Authorization` metadata value
(modelled as `Option String`) is split on spaces; exactly two pieces, the
first `"Bearer"`, the second non-empty, else an error. -/
def get_token_from_md (md_auth : Option String) : Except String String :=
  match md_auth with
  | none => .error "Metadata token not found"
  | some v =>
    match rust_split_char ' ' v.data with
    | [b, t] =>
      if b ≠ "Bearer".data then .error "Authorization flow error"
      else if t = [] then .error "Authorization flow error"
      else .ok (String.mk t)
    | _ => .error "Authorization flow error"

/-! ## `src/replication/replication_handler.rs`: data model -/

/-- `DataChunk` (lines 50-55): one replicated chunk as it reaches the
chunk validator; `data` is the byte payload, `checksum` the hex MD5 the
peer advertised. -/
structure DataChunk where
  object_id : String
  chunk_idx : Int
  data : List Nat
  checksum : String
deriving DecidableEq

/-- The observable actions of the chunk-validator task of
`load_into_backend` (lines 612-719): a `RetryChunk` frame sent on the
outbound replication stream, a chunk payload forwarded into the internal
data stream towards the backend writer, and a `Chunk` marker pushed into
the sync ledger. -/
inductive VEvent
  | retrySent (object_id : String) (chunk_idx : Int)
  | forwarded (chunk_idx : Int) (data : List Nat)
  | syncSent (object_id_val : Nat) (chunk_idx : Int)
deriving DecidableEq

/-- How the chunk-validator task ends: `completed i` is the normal return
`Ok(())` taken when the forwarded chunk satisfies `idx + 1 == max_chunks`;
the two `retries_exceeded` outcomes are the `retry_counter > 5` error
returns; `bad_object_id` is the `DieselUlid::from_str` failure in the sync
send; `stream_ended` is the channel closing before completion (the task
then returns `Ok(())` without having seen all chunks). -/
inductive ValidatorOutcome
  | completed (last_idx : Int)
  | retries_exceeded_missing
  | retries_exceeded_checksum
  | bad_object_id
  | stream_ended
deriving DecidableEq

/-- The chunk-validator loop of `load_into_backend` (lines 617-719) over
the list of chunks the `data_receiver` channel delivers, carrying the
mutable state `expected` and `retry_counter`.  Mirrors the source exactly:
on `idx != expected` a `RetryChunk { chunk_idx: expected }` is sent unless
`retry_counter > 5`; on an index match `expected` is incremented *before*
the checksum check; on an MD5 mismatch a
`RetryChunk { chunk_idx: data.chunk_idx }` is sent unless
`retry_counter > 5`; otherwise the payload is forwarded, the `Chunk`
marker is pushed to the sync ledger, and the task returns when
`idx + 1 == max_chunks`.  The MD5 hex digest is a parameter. -/
def run_validator_aux (md5hex : List Nat → String) (max_chunks : Int) :
    List DataChunk → Int → Nat → List VEvent × ValidatorOutcome
  | [], _, _ => ([], .stream_ended)
  | data :: rest, expected, retry_counter =>
    if data.chunk_idx ≠ expected then
      if retry_counter > 5 then ([], .retries_exceeded_missing)
      else
        let r := run_validator_aux md5hex max_chunks rest expected (retry_counter + 1)
        (.retrySent data.object_id expected :: r.1, r.2)
    else
      if md5hex data.data ≠ data.checksum then
        if retry_counter > 5 then ([], .retries_exceeded_checksum)
        else
          let r := run_validator_aux md5hex max_chunks rest (expected + 1) (retry_counter + 1)
          (.retrySent data.object_id data.chunk_idx :: r.1, r.2)
      else
        match ulid_decode_chars data.object_id.data with
        | none => ([.forwarded data.chunk_idx data.data], .bad_object_id)
        | some oid =>
          if data.chunk_idx + 1 = max_chunks then
            ([.forwarded data.chunk_idx data.data, .syncSent oid data.chunk_idx],
              .completed data.chunk_idx)
          else
            let r := run_validator_aux md5hex max_chunks rest (expected + 1) retry_counter
            (.forwarded data.chunk_idx data.data :: .syncSent oid data.chunk_idx :: r.1, r.2)

/-- The chunk validator started from `expected = 0`, `retry_counter = 0`
(lines 612-613). -/
def run_validator (md5hex : List Nat → String) (max_chunks : Int)
    (chunks : List DataChunk) : List VEvent × ValidatorOutcome :=
  run_validator_aux md5hex max_chunks chunks 0 0

/-- The indices of the chunks forwarded into the backend writer stream, in
order. -/
def forwarded_idxs (evs : List VEvent) : List Int :=
  evs.filterMap fun e => match e with | .forwarded i _ => some i | _ => none

/-- The bytes forwarded into the backend writer stream, concatenated. -/
def forwarded_bytes (evs : List VEvent) : List Nat :=
  (evs.filterMap fun e => match e with | .forwarded _ d => some d | _ => none).flatten

/-- The number of `RetryChunk` frames the validator sent. -/
def retry_count (evs : List VEvent) : Nat :=
  (evs.filter fun e => match e with | .retrySent _ _ => true | _ => false).length

/-! ## `load_into_backend`: the writer task's transform chain -/

/-- The backend location record (`ObjectLocation` of `structs.rs`, listed
in the spec's data model); only the fields the embedded code reads or
writes are kept.  `partially_synced` models `is_partial_sync`. -/
structure ObjectLocation where
  raw_content_len : Int
  disk_content_len : Int
  disk_hash : Option String
  encryption_key : Option String
  owning_endpoint : Nat
  partially_synced : Bool
deriving DecidableEq

/-- The transformers the writer task of `load_into_backend`
(lines 722-767) can append to the `ArunaStreamReadWriter`. -/
inductive TransformerTag
  | footerGen (blocklist : List Nat)
  | chaCha20Enc (key : String)
  | sha256Hash
  | sizeProbe
deriving DecidableEq

/-- The transformer chain the writer task builds, in the order the source
adds the transformers: a `FooterGenerator` seeded with the blocklist when
`raw_content_len > 5242880 + 80 * 28`, a `ChaCha20Enc` keyed by the
location's encryption key when one is present, then the SHA-256 hashing
transformer and the size probe. -/
def build_transformer_chain (loc : ObjectLocation) (blocklist : List Nat) :
    List TransformerTag :=
  (if loc.raw_content_len > 5242880 + 80 * 28 then [.footerGen blocklist] else []) ++
    (match loc.encryption_key with
     | some k => [.chaCha20Enc k]
     | none => []) ++
    [.sha256Hash, .sizeProbe]

/-- The stream transformation one transformer performs; the footer
generator and the ChaCha20 encryptor are abstract stream functions
(parameters `foot`, `enc`), the hashing transformer and the size probe
observe the stream without changing it. -/
def apply_tag (foot : List Nat → List Nat → List Nat)
    (enc : String → List Nat → List Nat) : TransformerTag → List Nat → List Nat
  | .footerGen bl, d => foot bl d
  | .chaCha20Enc k, d => enc k d
  | .sha256Hash, d => d
  | .sizeProbe, d => d

/-- The writer task: run the data through the transformer chain into the
buffered S3 sink; the SHA-256 transformer and the size probe report the
hex digest and the byte count of the final (post-footer, post-encryption)
stream. -/
def run_writer (foot : List Nat → List Nat → List Nat)
    (enc : String → List Nat → List Nat) (sha256hex : List Nat → String)
    (loc : ObjectLocation) (blocklist : List Nat) (data : List Nat) :
    String × Nat :=
  let out := (build_transformer_chain loc blocklist).foldl
    (fun d t => apply_tag foot enc t d) data
  (sha256hex out, out.length)

/-- `ReplicationHandler::load_into_backend` (lines 603-780): the chunk
validator feeds the internal data stream; the writer task drains it
through the transform chain into the backend; afterwards the caller's
location is updated with `disk_content_len = final_size` and
`disk_hash = Some(sha_final)`.  The validator task's join handle is
dropped in the source, so the write-back happens whatever the validator's
outcome; the forwarded prefix is what reaches the writer. -/
def load_into_backend (md5hex : List Nat → String)
    (foot : List Nat → List Nat → List Nat) (enc : String → List Nat → List Nat)
    (sha256hex : List Nat → String) (chunks : List DataChunk)
    (loc : ObjectLocation) (max_chunks : Int) (blocklist : List Nat) :
    List VEvent × ValidatorOutcome × ObjectLocation :=
  let r := run_validator md5hex max_chunks chunks
  let w := run_writer foot enc sha256hex loc blocklist (forwarded_bytes r.1)
  (r.1, r.2, { loc with disk_content_len := (w.2 : Int), disk_hash := some w.1 })

/-! ## `ReplicationHandler::process`: the sync ledger and the finalizer -/

/-- `RcvSync` ledger markers as the sync handler stores them (the `Finish`
trigger itself is never inserted into the set, so it is not a marker). -/
inductive RcvSync
  | info (object_id : Nat) (chunks : Int)
  | chunk (object_id : Nat) (idx : Int)
deriving DecidableEq

/-- The outbound `PullReplicationRequest` frames the finalizer can send. -/
inductive ReqMsg
  | abortMsg
  | finishMsg
deriving DecidableEq

/-- The `Info` markers of a ledger snapshot, in order. -/
def infos_of (s : List RcvSync) : List (Nat × Int) :=
  s.filterMap fun m => match m with | .info id n => some (id, n) | _ => none

/-- `collected`: the number of `Chunk(id, *)` markers of the snapshot (the
snapshot is a `HashSet`, so the markers are distinct). -/
def chunk_count (s : List RcvSync) (id : Nat) : Nat :=
  (s.filter fun m => match m with | .chunk i _ => i = id | _ => false).length

/-- First-match lookup in the `finished_objects` map (object id to
`is_synced` flag). -/
def lookup_flag : List (Nat × Bool) → Nat → Option Bool
  | [], _ => none
  | (k, b) :: rest, id => if k = id then some b else lookup_flag rest id

/-- `DashMap::insert`, modelled as a shadowing prepend. -/
def insert_flag (fin : List (Nat × Bool)) (id : Nat) (b : Bool) : List (Nat × Bool) :=
  (id, b) :: fin

/-- The finalizer loop of `ReplicationHandler::process` (lines 509-585)
over one ledger snapshot: for every `Info(id, chunks)` marker compare
`chunks` with the number of `Chunk(id, *)` markers; on a mismatch, skip
the object when `finished_objects` records it as already synced, else send
`ErrorMessage::Abort` and fail; on a match record the object with
`is_synced = false` and continue; when every `Info` passed, send
`FinishMessage`. -/
def process_finalize_aux (s : List RcvSync) :
    List (Nat × Int) → List (Nat × Bool) → List ReqMsg × Except String Unit
  | [], _ => ([.finishMsg], .ok ())
  | (id, n) :: rest, fin =>
    if n ≠ (chunk_count s id : Int) then
      match lookup_flag fin id with
      | some true => process_finalize_aux s rest fin
      | _ => ([.abortMsg], .error "Not all chunks recieved, aborting sync")
    else process_finalize_aux s rest (insert_flag fin id false)

/-- The finalizer on a snapshot `s` with the `finished_objects` map `fin`
as the other tasks left it. -/
def process_finalize (s : List RcvSync) (fin : List (Nat × Bool)) :
    List ReqMsg × Except String Unit :=
  process_finalize_aux s (infos_of s) fin

/-! ## The access gate: `AuthHandler::handle_object` and its helpers

`handle_object`, `prefix_into_resource_states` and
`extract_access_key_perms` are embedded from `src/auth/auth.rs`; the
helpers they call that live in files outside the provided sources
(`structs.rs`, `helpers.rs`, `auth_helpers.rs`, the rule engine) are
modelled from the specification and say so below. -/

/-- The HTTP methods the gate dispatches on. -/
inductive Method
  | GET
  | HEAD
  | POST
  | PUT
  | DELETE
deriving DecidableEq

/-- Modelled from the spec: `is_method_read` of `src/helpers.rs` (not in
the corpus); GET and friends are read-ish, POST and friends mutate. -/
def is_method_read : Method → Bool
  | .GET => true
  | .HEAD => true
  | _ => false

/-- `DbPermissionLevel`, the totally ordered permission enum
(None < Read < Append < Write < Admin); `noPerm` stands for its `None`. -/
inductive DbPermissionLevel
  | noPerm
  | read
  | append
  | write
  | admin
deriving DecidableEq

/-- The rank giving `DbPermissionLevel` its total order. -/
def DbPermissionLevel.rank : DbPermissionLevel → Nat
  | .noPerm => 0
  | .read => 1
  | .append => 2
  | .write => 3
  | .admin => 4

/-- Modelled from the spec: `DbPermissionLevel::from(method)` of
`structs.rs` (not in the corpus); a read-ish method requires `Read`, a
mutating one `Write`. -/
def db_perm_from_method (m : Method) : DbPermissionLevel :=
  if is_method_read m then .read else .write

/-- The `ObjectType` variants `prefix_into_resource_states` dispatches on;
`other` stands for every variant its wildcard arm rejects. -/
inductive ObjectTypeM
  | project
  | collection
  | dataset
  | object
  | other
deriving DecidableEq

/-- The data classes of a resource; `privateCls` stands for `Private`,
`other` for the remaining variants. -/
inductive DataClassM
  | public
  | privateCls
  | other
deriving DecidableEq

/-- A cached resource (`Object` of `structs.rs`, fields the gate reads). -/
structure ObjR where
  id : Nat
  object_type : ObjectTypeM
  data_class : DataClassM
  name : String
deriving DecidableEq

/-- `AccessKeyPermissions`: the access key, its user, and the per-resource
permission map. -/
structure AccessKeyPermissions where
  access_key : String
  user_id : Nat
  permissions : List (Nat × DbPermissionLevel)
deriving DecidableEq

/-- The S3 error kinds `handle_object` can produce; `notImplemented`
stands for the `todo!()` special-bucket handlers. -/
inductive S3Err
  | accessDenied
  | noSuchKey
  | methodNotAllowed
  | internalErr
  | serviceUnavailable
  | malformedACL
  | notImplemented
deriving DecidableEq

/-- `ResourceStates` (`structs.rs`, described in the spec's data model):
the four resolved slots and the `missing(index, total, name)` list. -/
structure ResourceStates where
  project : Option ObjR := none
  collection : Option ObjR := none
  dataset : Option ObjR := none
  object : Option ObjR := none
  missing : List (Nat × Nat × String) := []
deriving DecidableEq

/-- Modelled from the spec: `set_missing` records a not-yet-resolved
prefix; `missing[i].index < missing[i].total` is an invariant, so an index
at or past the total is an error. -/
def ResourceStates.set_missing (rs : ResourceStates) (idx total : Nat)
    (name : String) : Except String ResourceStates :=
  if idx < total then .ok { rs with missing := rs.missing ++ [(idx, total, name)] }
  else .error "invalid missing index"

/-- `set_project` and friends fill the slot for the resolved resource. -/
def ResourceStates.set_project (rs : ResourceStates) (o : ObjR) : ResourceStates :=
  { rs with project := some o }

def ResourceStates.set_collection (rs : ResourceStates) (o : ObjR) : ResourceStates :=
  { rs with collection := some o }

def ResourceStates.set_dataset (rs : ResourceStates) (o : ObjR) : ResourceStates :=
  { rs with dataset := some o }

def ResourceStates.set_object (rs : ResourceStates) (o : ObjR) : ResourceStates :=
  { rs with object := some o }

/-- Modelled from the spec: `validate()` rejects contradictions, e.g. a
lower slot filled while the project slot is empty. -/
def ResourceStates.validate (rs : ResourceStates) : Except String Unit :=
  if (rs.collection.isSome || rs.dataset.isSome || rs.object.isSome) &&
      rs.project.isNone then .error "Invalid resource state"
  else .ok ()

/-- Modelled from the spec: `disallow_missing()` converts any missing slot
into `NoSuchKey` on read flows. -/
def ResourceStates.disallow_missing (rs : ResourceStates) : Except S3Err Unit :=
  if rs.missing = [] then .ok () else .error .noSuchKey

/-- Modelled from the spec: `fail_partial_sync(self_id)` inspects the
object's location (looked up through the cache's location map, passed
explicitly here); a location owned by another endpoint and flagged
partial fails with `ServiceUnavailable`. -/
def ResourceStates.fail_partial_sync (rs : ResourceStates) (self_id : Nat)
    (locs : Nat → Option ObjectLocation) : Except S3Err Unit :=
  match rs.object with
  | none => .ok ()
  | some o =>
    match locs o.id with
    | none => .ok ()
    | some l =>
      if l.owning_endpoint ≠ self_id && l.partially_synced then
        .error .serviceUnavailable
      else .ok ()

/-- `require_project()`: absence is a caller-invariant violation. -/
def ResourceStates.require_project (rs : ResourceStates) : Except S3Err ObjR :=
  match rs.project with
  | some p => .ok p
  | none => .error .internalErr

/-- `require_object()`: absence is `NoSuchKey`. -/
def ResourceStates.require_object (rs : ResourceStates) : Except S3Err ObjR :=
  match rs.object with
  | some o => .ok o
  | none => .error .noSuchKey

/-- `get_object()`. -/
def ResourceStates.get_object (rs : ResourceStates) : Option ObjR := rs.object

/-- First-match lookup in an access key's permission map. -/
def lookup_perm : List (Nat × DbPermissionLevel) → Nat → Option DbPermissionLevel
  | [], _ => none
  | (k, l) :: rest, id => if k = id then some l else lookup_perm rest id

/-- Modelled from the spec: `ResourceStates::check_permissions` passes iff
the key holds a permission at least `required` on some resource of the
project → collection → dataset → object chain; otherwise the request is
denied. -/
def ResourceStates.check_permissions (rs : ResourceStates)
    (key : AccessKeyPermissions) (required : DbPermissionLevel) :
    Except S3Err Unit :=
  let chain := [rs.project, rs.collection, rs.dataset, rs.object].filterMap id
  if chain.any (fun o =>
      match lookup_perm key.permissions o.id with
      | some l => required.rank ≤ l.rank
      | none => false) then .ok ()
  else .error .accessDenied

/-- The in-memory cache surface the gate consults. -/
structure CacheM where
  by_path : String → Option ObjR
  key_perms : String → Option AccessKeyPermissions
  user_attrs : Nat → Option (List (String × String))
  locations : Nat → Option ObjectLocation

/-- `CheckAccessResult`, the gate's output contract. -/
structure CheckAccessResult where
  resource_states : Option ResourceStates := none
  user_id : Option String := none
  token_id : Option String := none
  location : Option ObjectLocation := none
  cors_headers : Option (List (String × String)) := none
deriving DecidableEq

/-- The input bundle an object-scope rule evaluates over
(`ObjectRuleInputBuilder`): the method, the requester's attributes and
permissions when credentials resolved, and the resolved resource states.
Building succeeds with absent user fields (the source's no-credentials
path reaches evaluation). -/
structure ObjectRuleInput where
  method : Method
  attributes : Option (List (String × String))
  permissions : Option (List (Nat × DbPermissionLevel))
  states : ResourceStates

/-- Modelled from the spec: `project_get_headers` returns the project's
CORS headers for the method; none are configured in the embedded cache. -/
def project_get_headers (_ : ObjR) (_ : Method) :
    Option (List (String × String)) := none

/-- Modelled from the spec: `key_into_prefix` of `auth_helpers.rs` (not in
the corpus) parses `"bucket/key"` into the 1..4 `(prefix, name)` pairs
`/b`, `/b/x`, `/b/x/y`, `/b/x/y/z`, shortest first. -/
def key_into_prefixes (path : String) : Except S3Err (List (String × String)) :=
  let segs := rust_split_char '/' path.data
  if segs.length > 4 || segs.any (· = []) then .error .internalErr
  else
    .ok ((List.range segs.length).map fun i =>
      (String.mk (List.intercalate ['/'] (segs.take (i + 1))),
        String.mk (segs.getD i [])))

/-- `AuthHandler::prefix_into_resource_states` (lines 560-600), the
per-prefix resolution loop: a cache miss records a missing slot, a hit
fills the slot of its `object_type`, an unexpected type is `NoSuchKey`;
`validate` runs at the end. -/
def prefix_into_rs_aux (by_path : String → Option ObjR) (len : Nat) :
    List (Nat × String × String) → ResourceStates → Except S3Err ResourceStates
  | [], rs => .ok rs
  | (idx, p, name) :: rest, rs =>
    match by_path p with
    | none =>
      match rs.set_missing idx len name with
      | .error _ => .error .internalErr
      | .ok rs' => prefix_into_rs_aux by_path len rest rs'
    | some obj =>
      match obj.object_type with
      | .project => prefix_into_rs_aux by_path len rest (rs.set_project obj)
      | .dataset => prefix_into_rs_aux by_path len rest (rs.set_dataset obj)
      | .collection => prefix_into_rs_aux by_path len rest (rs.set_collection obj)
      | .object => prefix_into_rs_aux by_path len rest (rs.set_object obj)
      | .other => .error .noSuchKey

/-- `prefix_into_resource_states` over an indexed prefix list. -/
def prefix_into_resource_states (by_path : String → Option ObjR)
    (prefixes : List (String × String)) : Except S3Err ResourceStates :=
  match prefix_into_rs_aux by_path prefixes.length prefixes.enum {} with
  | .error e => .error e
  | .ok rs =>
    match rs.validate with
    | .error _ => .error .internalErr
    | .ok _ => .ok rs

/-- `AuthHandler::extract_access_key_perms` (lines 445-457): credentials
resolve only when the access key is cached and its user has attributes. -/
def extract_access_key_perms (cache : CacheM) (creds : Option String) :
    Option (AccessKeyPermissions × List (String × String)) :=
  match creds with
  | none => none
  | some ak =>
    match cache.key_perms ak with
    | none => none
    | some key =>
      match cache.user_attrs key.user_id with
      | none => none
      | some attrs => some (key, attrs)

/-- `AuthHandler::handle_object` (lines 338-420).  Special buckets
`objects`/`bundles` reject non-read methods and delegate to `todo!()`
handlers.  Otherwise: resolve the 1..4 prefixes, `disallow_missing` on
read methods, `fail_partial_sync` always, CORS headers from the project;
then, *only when the credentials resolve to a cached access key*, check
the data class and, unless the object is Public, the permission chain;
evaluate the object-scope rules (the parameter `rule_eval`); attach the
object's backend location. -/
def handle_object (cache : CacheM) (rule_eval : ObjectRuleInput → Bool)
    (self_id : Nat) (bucket_name key_name : String) (method : Method)
    (creds : Option String) : Except S3Err CheckAccessResult :=
  if bucket_name = "objects" then
    if ¬ is_method_read method then .error .methodNotAllowed
    else .error .notImplemented
  else if bucket_name = "bundles" then
    if ¬ is_method_read method then .error .methodNotAllowed
    else .error .notImplemented
  else
    match key_into_prefixes (bucket_name ++ "/" ++ key_name) with
    | .error e => .error e
    | .ok prefixes =>
      match prefix_into_resource_states cache.by_path prefixes with
      | .error e => .error e
      | .ok rs =>
        match (if is_method_read method then rs.disallow_missing else .ok ()) with
        | .error e => .error e
        | .ok _ =>
          match rs.fail_partial_sync self_id cache.locations with
          | .error e => .error e
          | .ok _ =>
            match rs.require_project with
            | .error e => .error e
            | .ok proj =>
              let cors := project_get_headers proj method
              let user_step : Except S3Err (Option AccessKeyPermissions ×
                  Option (List (String × String))) :=
                match extract_access_key_perms cache creds with
                | some (key, attrs) =>
                  match rs.require_object with
                  | .error e => .error e
                  | .ok obj =>
                    match (if obj.data_class ≠ .public then
                        rs.check_permissions key (db_perm_from_method method)
                      else .ok ()) with
                    | .error e => .error e
                    | .ok _ => .ok (some key, some attrs)
                | none => .ok (none, none)
              match user_step with
              | .error e => .error e
              | .ok (user, attrs) =>
                if rule_eval
                    { method := method, attributes := attrs,
                      permissions := user.map (·.permissions), states := rs } then
                  let location :=
                    match rs.get_object with
                    | some o => cache.locations o.id
                    | none => none
                  .ok { resource_states := some rs,
                        user_id := user.map (fun k => ulid_to_string k.user_id),
                        token_id := user.map (·.access_key),
                        location := location,
                        cors_headers := cors }
                else .error .accessDenied

/-! ## Concrete inputs used by the claim theorems, counterexamples and
witnesses -/

/-- The all-zero canonical ULID string. -/
def ulid_zeros : String := "00000000000000000000000000"

/-- A digest function under which `[1]` hashes to `"ok"` and everything
else to `"bad"`. -/
def c1_md5 : List Nat → String := fun d => if d = [1] then "ok" else "bad"

/-- Chunk 0 with an advertised checksum its payload does not match. -/
def c1_chunk0 : DataChunk := ⟨ulid_zeros, 0, [0], "zzz"⟩

/-- Chunk 1 with a matching checksum. -/
def c1_chunk1 : DataChunk := ⟨ulid_zeros, 1, [1], "ok"⟩

/-- A key cache holding key identity 42 under serial 7. -/
def c2_cache : Int → Option Int := fun s => if s = 7 then some 42 else none

/-- A well-signed unexpired proxy-audience token without an intent. -/
def c2_token : TokenModel :=
  ⟨some "7", 42, ⟨"aruna", ulid_zeros, 100, "proxy", some "tid1", none⟩⟩

/-- A private project. -/
def c3_project : ObjR := ⟨1, .project, .privateCls, "proj"⟩

/-- A private object below it. -/
def c3_object : ObjR := ⟨2, .object, .privateCls, "obj.dat"⟩

/-- A cache resolving `proj` and `proj/obj.dat`, with no access keys and
no locations. -/
def c3_cache : CacheM :=
  { by_path := fun p =>
      if p = "proj" then some c3_project
      else if p = "proj/obj.dat" then some c3_object else none,
    key_perms := fun _ => none,
    user_attrs := fun _ => none,
    locations := fun _ => none }

/-- The resource states `proj/obj.dat` resolves to. -/
def c3_states : ResourceStates :=
  { project := some c3_project, object := some c3_object }

/-- A rule set that allows everything. -/
def c3_rules : ObjectRuleInput → Bool := fun _ => true

/-- A well-signed unexpired token whose audience is `"aruna"`. -/
def c4_token : TokenModel :=
  ⟨some "7", 42, ⟨"aruna", ulid_zeros, 100, "aruna", none, none⟩⟩

/-- The same token with audience `"proxy"`. -/
def c4_token_proxy : TokenModel :=
  ⟨some "7", 42, ⟨"aruna", ulid_zeros, 100, "proxy", none, none⟩⟩

/-- A digest function hashing everything to `"h"`. -/
def c6_md5 : List Nat → String := fun _ => "h"

/-- A single chunk whose checksum matches under `c6_md5`. -/
def c6_chunk : DataChunk := ⟨ulid_zeros, 0, [], "h"⟩

/-- A location over the footer threshold, with an encryption key. -/
def c7_loc : ObjectLocation := ⟨6000000, 0, none, some "key1", 0, false⟩

/-- A concrete footer semantics: prepend the blocklist. -/
def c7_foot : List Nat → List Nat → List Nat := fun bl d => bl ++ d

/-- A concrete encryption semantics: append one byte. -/
def c7_enc : String → List Nat → List Nat := fun _ d => d ++ [9]

/-- A concrete digest: the decimal length. -/
def c7_sha : List Nat → String := fun d => toString d.length

/-! ## Helper lemmas about `rust_split_char` -/

theorem rust_split_char_ne_nil (sep : Char) (cs : List Char) :
    rust_split_char sep cs ≠ [] := by
  cases cs with
  | nil => simp [rust_split_char]
  | cons c rest =>
    simp only [rust_split_char]
    split
    · simp
    · split <;> simp

theorem rust_split_char_not_mem (sep : Char) (cs : List Char) (h : sep ∉ cs) :
    rust_split_char sep cs = [cs] := by
  induction cs with
  | nil => rfl
  | cons c rest ih =>
    simp only [List.mem_cons, not_or] at h
    have hc : ¬ c = sep := fun hcc => h.1 hcc.symm
    simp only [rust_split_char, ih h.2, if_neg hc]

theorem rust_split_char_append (sep : Char) (xs ys : List Char) (h : sep ∉ xs) :
    rust_split_char sep (xs ++ sep :: ys) = xs :: rust_split_char sep ys := by
  induction xs with
  | nil => simp [rust_split_char]
  | cons c rest ih =>
    simp only [List.mem_cons, not_or] at h
    have hc : ¬ c = sep := fun hcc => h.1 hcc.symm
    simp only [List.cons_append, rust_split_char, List.append_eq, ih h.2, if_neg hc]

/-! ## C9: bearer extraction -/

/-- C9: `get_token_from_md` returns the token substring if and only if the
`Authorization` metadata value splits on spaces into exactly two parts, the
first equal to `"Bearer"` and the second non-empty; every other shape
(missing key, wrong part count, wrong prefix, empty token) yields an
error of the authorization flow. -/
theorem c9_get_token_from_md (auth : Option String) :
    ((∃ tok, get_token_from_md auth = .ok tok) ↔
      (∃ v t, auth = some v ∧ rust_split_char ' ' v.data = ["Bearer".data, t] ∧
        t ≠ [])) ∧
    (∀ v t, auth = some v → rust_split_char ' ' v.data = ["Bearer".data, t] →
      t ≠ [] → get_token_from_md auth = .ok (String.mk t)) ∧
    (¬ (∃ v t, auth = some v ∧ rust_split_char ' ' v.data = ["Bearer".data, t] ∧
        t ≠ []) → ∃ msg, get_token_from_md auth = .error msg) := by
  have main : ∀ v t, rust_split_char ' ' v.data = ["Bearer".data, t] → t ≠ [] →
      get_token_from_md (some v) = .ok (String.mk t) := by
    intro v t hsplit ht
    simp only [get_token_from_md, hsplit]
    rw [if_neg (by simp), if_neg ht]
  have hiff : (∃ tok, get_token_from_md auth = .ok tok) ↔
      (∃ v t, auth = some v ∧ rust_split_char ' ' v.data = ["Bearer".data, t] ∧
        t ≠ []) := by
    constructor
    · rintro ⟨tok, htok⟩
      cases auth with
      | none => simp [get_token_from_md] at htok
      | some v =>
        refine ⟨v, ?_⟩
        simp only [get_token_from_md] at htok
        cases hsplit : rust_split_char ' ' v.data with
        | nil => rw [hsplit] at htok; exact absurd htok (by simp)
        | cons b rest =>
          cases rest with
          | nil => rw [hsplit] at htok; exact absurd htok (by simp)
          | cons t rest2 =>
            cases rest2 with
            | nil =>
              rw [hsplit] at htok
              by_cases hb : b = "Bearer".data
              · subst hb
                by_cases hte : t = []
                · subst hte; simp at htok
                · exact ⟨t, rfl, rfl, hte⟩
              · simp [hb] at htok
            | cons _ _ => rw [hsplit] at htok; exact absurd htok (by simp)
    · rintro ⟨v, t, hv, hsplit, ht⟩
      exact ⟨String.mk t, hv ▸ main v t hsplit ht⟩
  refine ⟨hiff, fun v t hv hsplit ht => hv ▸ main v t hsplit ht, fun hno => ?_⟩
  cases hres : get_token_from_md auth with
  | error msg => exact ⟨msg, rfl⟩
  | ok tok => exact absurd (hiff.mp ⟨tok, hres⟩) hno

/-! ## C10: `Intent::deserialize` is not total -/

/-- C10 counterexample: the input `"hello"` contains no `'_'`, yet
`Intent::deserialize` does *not* panic on it: the struct literal
evaluates `DieselUlid::from_str(split[0])?` before ever indexing
`split[1]`, and `"hello"` is not a ULID, so the `?` returns the serde
error `"Invalid UUID"` — refuting the claim that every no-separator
input panics with an out-of-bounds index. -/
theorem c10_no_underscore_serde_error :
    ('_' ∉ "hello".data) ∧
    intent_deserialize "hello" = .err "Invalid UUID" ∧
    intent_deserialize "hello" ≠ .panicked "index out of bounds" :=
  ⟨by decide, rfl, by decide⟩

/-- C10 amended: `Intent::deserialize` is not total, but the `split[1]`
panic on a no-separator input is reached only after the ULID parse of
`split[0]` succeeds: a no-`'_'` input whose single piece is a valid ULID
panics with the out-of-bounds index, a no-`'_'` input whose piece is not
a ULID returns the serde error `"Invalid UUID"`, and any input whose
action byte parses to a `u8` outside `0..=4` panics with
`"Invalid action"` in `Action::from`. -/
theorem c10_intent_deserialize_panic_cases :
    (∀ (s : String) (t : Nat), '_' ∉ s.data →
      ulid_decode_chars s.data = some t →
      intent_deserialize s = .panicked "index out of bounds") ∧
    (∀ s : String, '_' ∉ s.data →
      ulid_decode_chars s.data = none →
      intent_deserialize s = .err "Invalid UUID") ∧
    (∀ (s : String) (p0 p1 : List Char) (rest : List (List Char)) (t b : Nat),
      rust_split_char '_' s.data = p0 :: p1 :: rest →
      ulid_decode_chars p0 = some t → u8_from_str p1 = some b → 4 < b →
      intent_deserialize s = .panicked "Invalid action") := by
  refine ⟨?_, ?_, ?_⟩
  · intro s t hs ht
    simp only [intent_deserialize, intent_deserialize_chars,
      rust_split_char_not_mem '_' s.data hs, ht]
  · intro s hs ht
    simp only [intent_deserialize, intent_deserialize_chars,
      rust_split_char_not_mem '_' s.data hs, ht]
  · intro s p0 p1 rest t b hsplit ht hb hgt
    have hact : action_from_u8 b = none := by
      match b, hgt with
      | n + 5, _ => rfl
    simp only [intent_deserialize, intent_deserialize_chars, hsplit, ht, hb, hact]

/-! ## C4: inbound JWT verification -/

/-- C4 counterexample: a token signed with the key the cache holds under
its `kid` serial, unexpired, with audience `"aruna"` — one of the two
audiences the claim says verification accepts — is rejected, because
`extract_claims` validates with audience `"proxy"` only. -/
theorem c4_aruna_audience_rejected :
    c2_cache 7 = some c4_token.signed_key ∧
    (0 : Nat) < c4_token.claims.exp ∧
    (c4_token.claims.aud = "aruna" ∨ c4_token.claims.aud = "proxy") ∧
    verify_inbound c2_cache 0 c4_token = .error "InvalidAudience" :=
  ⟨rfl, by decide, Or.inl rfl, rfl⟩

/-- C4 amended: for a token whose `kid` parses to serial `k`, inbound
verification succeeds iff the cache holds the signing key under `k`, the
token is unexpired, and its audience equals `"proxy"`. -/
theorem c4_verify_inbound_iff (cache : Int → Option Int) (now : Nat)
    (t : TokenModel) (ks : String) (k : Int)
    (hkid : t.kid = some ks) (hks : i32_from_str ks.data = some k) :
    (∃ c, verify_inbound cache now t = .ok c) ↔
      (cache k = some t.signed_key ∧ now < t.claims.exp ∧
        t.claims.aud = "proxy") := by
  simp only [verify_inbound, hkid, hks]
  cases hc : cache k with
  | none => simp
  | some dk =>
    simp only [extract_claims]
    constructor
    · rintro ⟨c, hcl⟩
      split_ifs at hcl with h1 h2 h3
      push_neg at h1 h2 h3
      exact ⟨by rw [h1], h2, h3⟩
    · rintro ⟨h1, h2, h3⟩
      have hdk : dk = t.signed_key := Option.some_inj.mp h1
      rw [if_neg (by simp [hdk]), if_neg (by omega), if_neg (by simp [h3])]
      exact ⟨t.claims, rfl⟩

/-- C4 witness: the amended theorem at a concrete proxy-audience token. -/
theorem c4_verify_inbound_iff_witness :
    (∃ c, verify_inbound c2_cache 0 c4_token_proxy = .ok c) ↔
      (c2_cache 7 = some c4_token_proxy.signed_key ∧
        0 < c4_token_proxy.claims.exp ∧ c4_token_proxy.claims.aud = "proxy") :=
  c4_verify_inbound_iff c2_cache 0 c4_token_proxy "7" 7 rfl (by decide)

/-! ## C2: `check_permissions` intent dispatch -/

/-- C2: on a token that passes verification (kid parses to a serial the
cache maps to the token's signing key, unexpired, audience `"proxy"`) and
whose `sub` parses as a ULID, `check_permissions` accepts exactly: no
intent, an `All` intent regardless of target, or a
`CreateSecrets`/`DpExchange` intent whose target is this proxy.
`Impersonate`/`FetchInfo` intents are rejected with
`"Action not allowed for Dataproxy"`, and `CreateSecrets`/`DpExchange`
intents with a different target with
`"Token is not valid for this Dataproxy"`. -/
theorem c2_check_permissions_cases (cache : Int → Option Int) (self_id : Nat)
    (now : Nat) (t : TokenModel) (ks : String) (k : Int) (sub : Nat)
    (hkid : t.kid = some ks) (hks : i32_from_str ks.data = some k)
    (hc : cache k = some t.signed_key) (hexp : now < t.claims.exp)
    (haud : t.claims.aud = "proxy")
    (hsub : ulid_decode_chars t.claims.sub.data = some sub) :
    ((∃ r, check_permissions cache self_id now t = .ok r) ↔
      (t.claims.it = none ∨ ∃ i, t.claims.it = some i ∧
        (i.action = .All ∨
          ((i.action = .CreateSecrets ∨ i.action = .DpExchange) ∧
            i.target = self_id)))) ∧
    (∀ i, t.claims.it = some i →
      (i.action = .Impersonate ∨ i.action = .FetchInfo) →
      check_permissions cache self_id now t =
        .error "Action not allowed for Dataproxy") ∧
    (∀ i, t.claims.it = some i →
      (i.action = .CreateSecrets ∨ i.action = .DpExchange) →
      i.target ≠ self_id →
      check_permissions cache self_id now t =
        .error "Token is not valid for this Dataproxy") := by
  have hver : verify_inbound cache now t = .ok t.claims := by
    simp only [verify_inbound, hkid, hks, hc, extract_claims]
    rw [if_neg (by simp), if_neg (by omega), if_neg (by simp [haud])]
  refine ⟨⟨?_, ?_⟩, ?_, ?_⟩
  · rintro ⟨r, hr⟩
    cases hit : t.claims.it with
    | none => exact Or.inl rfl
    | some i =>
      refine Or.inr ⟨i, rfl, ?_⟩
      cases ha : i.action with
      | All => exact Or.inl rfl
      | CreateSecrets =>
        by_cases htar : i.target = self_id
        · exact Or.inr ⟨Or.inl rfl, htar⟩
        · simp [check_permissions, hver, hit, ha, htar] at hr
      | DpExchange =>
        by_cases htar : i.target = self_id
        · exact Or.inr ⟨Or.inr rfl, htar⟩
        · simp [check_permissions, hver, hit, ha, htar] at hr
      | Impersonate => simp [check_permissions, hver, hit, ha] at hr
      | FetchInfo => simp [check_permissions, hver, hit, ha] at hr
  · rintro (hnone | ⟨i, hit, hAll | ⟨hcs | hdp, htar⟩⟩)
    · exact ⟨(sub, t.claims.tid), by simp [check_permissions, hver, hnone, hsub]⟩
    · exact ⟨(sub, t.claims.tid),
        by simp [check_permissions, hver, hit, hAll, hsub]⟩
    · exact ⟨(sub, t.claims.tid),
        by simp [check_permissions, hver, hit, hcs, htar, hsub]⟩
    · exact ⟨(sub, none),
        by simp [check_permissions, hver, hit, hdp, htar, hsub]⟩
  · rintro i hit (him | hfi)
    · simp [check_permissions, hver, hit, him, hsub]
    · simp [check_permissions, hver, hit, hfi, hsub]
  · rintro i hit (hcs | hdp) htar
    · simp [check_permissions, hver, hit, hcs, htar, hsub]
    · simp [check_permissions, hver, hit, hdp, htar, hsub]

/-- C2 witness: the theorem at a concrete no-intent token. -/
theorem c2_check_permissions_cases_witness :
    ((∃ r, check_permissions c2_cache 5 0 c2_token = .ok r) ↔
      (c2_token.claims.it = none ∨ ∃ i, c2_token.claims.it = some i ∧
        (i.action = .All ∨
          ((i.action = .CreateSecrets ∨ i.action = .DpExchange) ∧
            i.target = 5)))) ∧
    (∀ i, c2_token.claims.it = some i →
      (i.action = .Impersonate ∨ i.action = .FetchInfo) →
      check_permissions c2_cache 5 0 c2_token =
        .error "Action not allowed for Dataproxy") ∧
    (∀ i, c2_token.claims.it = some i →
      (i.action = .CreateSecrets ∨ i.action = .DpExchange) →
      i.target ≠ 5 →
      check_permissions c2_cache 5 0 c2_token =
        .error "Token is not valid for this Dataproxy") :=
  c2_check_permissions_cases c2_cache 5 0 c2_token "7" 7 0 rfl (by decide) rfl
    (by decide) rfl (by decide)

/-! ## C3: `handle_object` permission gating -/

/-- C3: the code at the claim's failing input.  A GET for `proj/obj.dat`
resolves to an object whose data class is `Private`; no credentials are
supplied; the rules allow.  `handle_object` nevertheless *succeeds* (with
`user_id = none`), because the permission check is reached only inside the
`if let Some(user) = extract_access_key_perms(creds)` branch: with no (or
an unknown) access key the non-Public permission requirement is skipped
entirely, contradicting the claim that such a request must fail. -/
theorem c3_private_object_served_without_creds :
    c3_object.data_class = DataClassM.privateCls ∧
    c3_cache.by_path "proj/obj.dat" = some c3_object ∧
    handle_object c3_cache c3_rules 9 "proj" "obj.dat" Method.GET none =
      .ok { resource_states := some c3_states, user_id := none,
            token_id := none, location := none, cors_headers := none } :=
  ⟨rfl, rfl, rfl⟩

/-! ## C1: forwarded chunk indices -/

/-- C1: the code at the claim's failing input, `max_chunks = 2`.  Chunk 0
arrives with a wrong checksum: the validator has *already incremented*
`expected` when it rejects the checksum (source line 660 runs before the
hash comparison), so it asks the peer to retry chunk 0 but will never
accept it again; chunk 1 then matches `expected = 1`, is forwarded, and
completes the run.  The forwarded index sequence is `[1]`, not
`0, 1, …, N-1`. -/
theorem c1_forwarded_indices_can_skip :
    (run_validator c1_md5 2 [c1_chunk0, c1_chunk1]).2 =
      ValidatorOutcome.completed 1 ∧
    forwarded_idxs (run_validator c1_md5 2 [c1_chunk0, c1_chunk1]).1 = [1] ∧
    ([1] : List Int) ≠ [0, 1] ∧
    retry_count (run_validator c1_md5 2 [c1_chunk0, c1_chunk1]).1 = 1 :=
  ⟨rfl, rfl, by decide, rfl⟩

/-! ## C5: the finalizer -/

/-- C5 counterexample: a snapshot whose only `Info(5, 2)` marker has just
one `Chunk(5, *)` marker, while `finished_objects` records object 5 as
already synced — the finalizer still sends `FinishMessage` and returns
`ok`, so `FinishMessage` is *not* sent only when every `Info` count
matches. -/
theorem c5_finish_sent_despite_mismatch :
    RcvSync.info 5 2 ∈ ([.info 5 2, .chunk 5 0] : List RcvSync) ∧
    chunk_count [.info 5 2, .chunk 5 0] 5 = 1 ∧
    (2 : Int) ≠ 1 ∧
    process_finalize [.info 5 2, .chunk 5 0] [(5, true)] =
      ([ReqMsg.finishMsg], .ok ()) :=
  ⟨by decide, rfl, by decide, rfl⟩

theorem lookup_insert_ne (fin : List (Nat × Bool)) (id id' : Nat) (b : Bool)
    (h : id' ≠ id) :
    lookup_flag (insert_flag fin id b) id' = lookup_flag fin id' := by
  simp only [insert_flag, lookup_flag]
  rw [if_neg (fun heq => h heq.symm)]

theorem process_finalize_aux_dichotomy (s : List RcvSync) :
    ∀ (infos : List (Nat × Int)) (fin : List (Nat × Bool)),
      process_finalize_aux s infos fin = ([.finishMsg], .ok ()) ∨
      process_finalize_aux s infos fin =
        ([.abortMsg], .error "Not all chunks recieved, aborting sync") := by
  intro infos
  induction infos with
  | nil => intro fin; exact Or.inl rfl
  | cons p rest ih =>
    intro fin
    obtain ⟨id, n⟩ := p
    simp only [process_finalize_aux]
    split_ifs with hm
    · rcases hl : lookup_flag fin id with _ | b
      · exact Or.inr rfl
      · cases b with
        | false => exact Or.inr rfl
        | true => exact ih fin
    · exact ih (insert_flag fin id false)

theorem process_finalize_aux_finish_iff (s : List RcvSync) :
    ∀ (infos : List (Nat × Int)) (fin : List (Nat × Bool)),
      (infos.map Prod.fst).Nodup →
      (process_finalize_aux s infos fin = ([.finishMsg], .ok ()) ↔
        ∀ p ∈ infos, p.2 = (chunk_count s p.1 : Int) ∨
          lookup_flag fin p.1 = some true) := by
  intro infos
  induction infos with
  | nil => intro fin _; simp [process_finalize_aux]
  | cons p rest ih =>
    intro fin hnd
    obtain ⟨id, n⟩ := p
    simp only [List.map_cons, List.nodup_cons] at hnd
    obtain ⟨hid, hnd'⟩ := hnd
    simp only [process_finalize_aux]
    by_cases hm : n = (chunk_count s id : Int)
    · rw [if_neg (by simpa using hm)]
      have hlook : ∀ p' ∈ rest,
          lookup_flag (insert_flag fin id false) p'.1 = lookup_flag fin p'.1 := by
        intro p' hp'
        refine lookup_insert_ne fin id p'.1 false fun heq => ?_
        exact hid (heq ▸ List.mem_map_of_mem Prod.fst hp')
      rw [ih (insert_flag fin id false) hnd']
      constructor
      · intro h p' hp'
        rcases List.mem_cons.mp hp' with rfl | hp'
        · exact Or.inl hm
        · rw [← hlook p' hp']
          exact h p' hp'
      · intro h p' hp'
        rw [hlook p' hp']
        exact h p' (List.mem_cons_of_mem _ hp')
    · rw [if_pos (by simpa using hm)]
      rcases hl : lookup_flag fin id with _ | b
      · constructor
        · intro habs; exact absurd habs (by simp)
        · intro h
          rcases h (id, n) (List.mem_cons_self _ _) with h1 | h2
          · exact absurd h1 hm
          · rw [hl] at h2; exact absurd h2 (by simp)
      · cases b with
        | false =>
          constructor
          · intro habs; exact absurd habs (by simp)
          · intro h
            rcases h (id, n) (List.mem_cons_self _ _) with h1 | h2
            · exact absurd h1 hm
            · rw [hl] at h2; exact absurd h2 (by simp)
        | true =>
          rw [ih fin hnd']
          constructor
          · intro h p' hp'
            rcases List.mem_cons.mp hp' with rfl | hp'
            · exact Or.inr hl
            · exact h p' hp'
          · intro h p' hp'
            exact h p' (List.mem_cons_of_mem _ hp')

/-- C5 amended: the finalizer sends `FinishMessage` (and returns ok) iff
every `Info(id, N)` of the snapshot either has exactly `N` distinct
`Chunk(id, *)` markers or names an object `finished_objects` already
records as synced; otherwise it sends `ErrorMessage::Abort` and fails the
batch with the replication-incomplete error.  (The hypothesis: one `Info`
marker per object id, which the set-ledger provides.) -/
theorem c5_finalize_finish_iff (s : List RcvSync) (fin : List (Nat × Bool))
    (hids : ((infos_of s).map Prod.fst).Nodup) :
    (process_finalize s fin = ([ReqMsg.finishMsg], Except.ok ()) ↔
      ∀ p ∈ infos_of s, p.2 = (chunk_count s p.1 : Int) ∨
        lookup_flag fin p.1 = some true) ∧
    (¬ (∀ p ∈ infos_of s, p.2 = (chunk_count s p.1 : Int) ∨
        lookup_flag fin p.1 = some true) →
      process_finalize s fin =
        ([ReqMsg.abortMsg],
          Except.error "Not all chunks recieved, aborting sync")) := by
  have hiff := process_finalize_aux_finish_iff s (infos_of s) fin hids
  refine ⟨hiff, fun hno => ?_⟩
  rcases process_finalize_aux_dichotomy s (infos_of s) fin with h | h
  · exact absurd (hiff.mp h) hno
  · exact h

/-- C5 witness: the amended theorem at a matching one-chunk snapshot. -/
theorem c5_finalize_finish_iff_witness :
    (process_finalize [RcvSync.info 1 1, RcvSync.chunk 1 0] [] =
        ([ReqMsg.finishMsg], Except.ok ()) ↔
      ∀ p ∈ infos_of [RcvSync.info 1 1, RcvSync.chunk 1 0],
        p.2 = (chunk_count [RcvSync.info 1 1, RcvSync.chunk 1 0] p.1 : Int) ∨
          lookup_flag [] p.1 = some true) ∧
    (¬ (∀ p ∈ infos_of [RcvSync.info 1 1, RcvSync.chunk 1 0],
        p.2 = (chunk_count [RcvSync.info 1 1, RcvSync.chunk 1 0] p.1 : Int) ∨
          lookup_flag [] p.1 = some true) →
      process_finalize [RcvSync.info 1 1, RcvSync.chunk 1 0] [] =
        ([ReqMsg.abortMsg],
          Except.error "Not all chunks recieved, aborting sync")) :=
  c5_finalize_finish_iff [RcvSync.info 1 1, RcvSync.chunk 1 0] [] (by decide)

/-! ## C6: the chunk validator's retry budget and termination -/

theorem retry_count_nil : retry_count [] = 0 := rfl

theorem retry_count_cons_retry (a : String) (b : Int) (evs : List VEvent) :
    retry_count (.retrySent a b :: evs) = retry_count evs + 1 := by
  simp [retry_count, List.filter_cons]

theorem retry_count_cons_forwarded (i : Int) (d : List Nat) (evs : List VEvent) :
    retry_count (.forwarded i d :: evs) = retry_count evs := by
  simp [retry_count, List.filter_cons]

theorem retry_count_cons_sync (o : Nat) (i : Int) (evs : List VEvent) :
    retry_count (.syncSent o i :: evs) = retry_count evs := by
  simp [retry_count, List.filter_cons]

theorem run_validator_aux_spec (md5hex : List Nat → String) (N : Int) :
    ∀ (chunks : List DataChunk) (expected : Int) (r : Nat), r ≤ 6 →
      retry_count (run_validator_aux md5hex N chunks expected r).1 + r ≤ 6 ∧
      ((∃ i, (run_validator_aux md5hex N chunks expected r).2 = .completed i) ↔
        (∃ oid i, VEvent.syncSent oid i ∈
            (run_validator_aux md5hex N chunks expected r).1 ∧ i + 1 = N)) ∧
      (∀ i, (run_validator_aux md5hex N chunks expected r).2 = .completed i →
        i + 1 = N) ∧
      (((run_validator_aux md5hex N chunks expected r).2 =
          .retries_exceeded_missing ∨
        (run_validator_aux md5hex N chunks expected r).2 =
          .retries_exceeded_checksum) →
        retry_count (run_validator_aux md5hex N chunks expected r).1 + r = 6) := by
  intro chunks
  induction chunks with
  | nil =>
    intro expected r hr
    refine ⟨by simpa [run_validator_aux, retry_count_nil] using hr, ?_, ?_, ?_⟩
    · simp [run_validator_aux]
    · simp [run_validator_aux]
    · simp [run_validator_aux]
  | cons data rest ih =>
    intro expected r hr
    simp only [run_validator_aux]
    by_cases hidx : data.chunk_idx ≠ expected
    · rw [if_pos hidx]
      by_cases hr5 : r > 5
      · rw [if_pos hr5]
        refine ⟨?_, by simp, by simp, ?_⟩
        · simpa [retry_count_nil] using hr
        · intro _; simp [retry_count_nil]; omega
      · rw [if_neg hr5]
        obtain ⟨ih1, ih2, ih3, ih4⟩ := ih expected (r + 1) (by omega)
        refine ⟨?_, ?_, ih3, ?_⟩
        · simp only [retry_count_cons_retry]; omega
        · rw [ih2]
          constructor
          · rintro ⟨oid, i, hmem, hi⟩
            exact ⟨oid, i, List.mem_cons_of_mem _ hmem, hi⟩
          · rintro ⟨oid, i, hmem, hi⟩
            rcases List.mem_cons.mp hmem with heq | hmem
            · exact absurd heq (by simp)
            · exact ⟨oid, i, hmem, hi⟩
        · intro hout
          have := ih4 hout
          simp only [retry_count_cons_retry]; omega
    · rw [if_neg hidx]
      by_cases hmd5 : md5hex data.data ≠ data.checksum
      · rw [if_pos hmd5]
        by_cases hr5 : r > 5
        · rw [if_pos hr5]
          refine ⟨?_, by simp, by simp, ?_⟩
          · simpa [retry_count_nil] using hr
          · intro _; simp [retry_count_nil]; omega
        · rw [if_neg hr5]
          obtain ⟨ih1, ih2, ih3, ih4⟩ := ih (expected + 1) (r + 1) (by omega)
          refine ⟨?_, ?_, ih3, ?_⟩
          · simp only [retry_count_cons_retry]; omega
          · rw [ih2]
            constructor
            · rintro ⟨oid, i, hmem, hi⟩
              exact ⟨oid, i, List.mem_cons_of_mem _ hmem, hi⟩
            · rintro ⟨oid, i, hmem, hi⟩
              rcases List.mem_cons.mp hmem with heq | hmem
              · exact absurd heq (by simp)
              · exact ⟨oid, i, hmem, hi⟩
          · intro hout
            have := ih4 hout
            simp only [retry_count_cons_retry]; omega
      · rw [if_neg hmd5]
        rcases hu : ulid_decode_chars data.object_id.data with _ | oid
        · simp only [hu]
          refine ⟨?_, by simp, by simp, by simp⟩
          simpa [retry_count_cons_forwarded, retry_count_nil] using hr
        · simp only [hu]
          by_cases hlast : data.chunk_idx + 1 = N
          · rw [if_pos hlast]
            refine ⟨?_, ?_, ?_, by simp⟩
            · simpa [retry_count_cons_forwarded, retry_count_cons_sync,
                retry_count_nil] using hr
            · constructor
              · intro _
                exact ⟨oid, data.chunk_idx,
                  List.mem_cons_of_mem _ (List.mem_cons_self _ _), hlast⟩
              · intro _; exact ⟨data.chunk_idx, rfl⟩
            · intro i hi
              have : data.chunk_idx = i := by
                simpa using hi
              omega
          · rw [if_neg hlast]
            obtain ⟨ih1, ih2, ih3, ih4⟩ := ih (expected + 1) r hr
            refine ⟨?_, ?_, ih3, ?_⟩
            · simpa [retry_count_cons_forwarded, retry_count_cons_sync] using ih1
            · rw [ih2]
              constructor
              · rintro ⟨oid', i, hmem, hi⟩
                exact ⟨oid', i,
                  List.mem_cons_of_mem _ (List.mem_cons_of_mem _ hmem), hi⟩
              · rintro ⟨oid', i, hmem, hi⟩
                rcases List.mem_cons.mp hmem with heq | hmem
                · exact absurd heq (by simp)
                · rcases List.mem_cons.mp hmem with heq | hmem
                  · injection heq with h1 h2
                    subst h2
                    exact absurd hi hlast
                  · exact ⟨oid', i, hmem, hi⟩
            · intro hout
              have := ih4 hout
              simpa [retry_count_cons_forwarded, retry_count_cons_sync] using this

/-- C6: on every chunk stream the validator's single retry counter bounds
the `RetryChunk` frames by 6; the run returns normally (`completed`)
exactly when a validated chunk with `idx + 1 = max_chunks` is processed
through to its sync-ledger push; and an exhaustion error is returned
exactly with the retry budget spent (6 frames sent, the next mismatch
erroring instead of retrying). -/
theorem c6_validator_bounded (md5hex : List Nat → String) (N : Int)
    (chunks : List DataChunk) :
    retry_count (run_validator md5hex N chunks).1 ≤ 6 ∧
    ((∃ i, (run_validator md5hex N chunks).2 = .completed i) ↔
      (∃ oid i, VEvent.syncSent oid i ∈ (run_validator md5hex N chunks).1 ∧
        i + 1 = N)) ∧
    (∀ i, (run_validator md5hex N chunks).2 = .completed i → i + 1 = N) ∧
    (((run_validator md5hex N chunks).2 = .retries_exceeded_missing ∨
      (run_validator md5hex N chunks).2 = .retries_exceeded_checksum) →
      retry_count (run_validator md5hex N chunks).1 = 6) := by
  obtain ⟨h1, h2, h3, h4⟩ := run_validator_aux_spec md5hex N chunks 0 0 (by omega)
  exact ⟨by simpa [run_validator] using h1, h2, h3,
    fun h => by simpa [run_validator] using h4 h⟩

/-- C6 witness: the theorem at a one-chunk stream that completes. -/
theorem c6_validator_bounded_witness :
    retry_count (run_validator c6_md5 1 [c6_chunk]).1 ≤ 6 ∧
    ((∃ i, (run_validator c6_md5 1 [c6_chunk]).2 = .completed i) ↔
      (∃ oid i, VEvent.syncSent oid i ∈ (run_validator c6_md5 1 [c6_chunk]).1 ∧
        i + 1 = 1)) ∧
    (∀ i, (run_validator c6_md5 1 [c6_chunk]).2 = .completed i → i + 1 = 1) ∧
    (((run_validator c6_md5 1 [c6_chunk]).2 = .retries_exceeded_missing ∨
      (run_validator c6_md5 1 [c6_chunk]).2 = .retries_exceeded_checksum) →
      retry_count (run_validator c6_md5 1 [c6_chunk]).1 = 6) :=
  c6_validator_bounded c6_md5 1 [c6_chunk]

/-! ## C7: the writer task's transform chain and write-back -/

/-- C7: after `load_into_backend`, the caller's location carries
`disk_content_len` equal to the byte count the size probe observed (the
length of the stream after the transform chain) and `disk_hash` equal to
`some` of the digest the hashing transformer observed on that stream; the
footer generator is in the chain iff `raw_content_len > 5242880 + 80·28`,
and the ChaCha20 transformer iff the location has an encryption key. -/
theorem c7_load_into_backend_writeback (md5hex : List Nat → String)
    (foot : List Nat → List Nat → List Nat) (enc : String → List Nat → List Nat)
    (sha256hex : List Nat → String) (chunks : List DataChunk)
    (loc : ObjectLocation) (max_chunks : Int) (blocklist : List Nat) :
    (load_into_backend md5hex foot enc sha256hex chunks loc max_chunks
        blocklist).2.2.disk_content_len =
      (((build_transformer_chain loc blocklist).foldl
        (fun d t => apply_tag foot enc t d)
        (forwarded_bytes (run_validator md5hex max_chunks chunks).1)).length :
          Int) ∧
    (load_into_backend md5hex foot enc sha256hex chunks loc max_chunks
        blocklist).2.2.disk_hash =
      some (sha256hex ((build_transformer_chain loc blocklist).foldl
        (fun d t => apply_tag foot enc t d)
        (forwarded_bytes (run_validator md5hex max_chunks chunks).1))) ∧
    ((∃ bl, TransformerTag.footerGen bl ∈ build_transformer_chain loc blocklist)
      ↔ loc.raw_content_len > 5242880 + 80 * 28) ∧
    ((∃ k, TransformerTag.chaCha20Enc k ∈ build_transformer_chain loc blocklist)
      ↔ loc.encryption_key.isSome) := by
  refine ⟨rfl, rfl, ?_, ?_⟩
  · constructor
    · rintro ⟨bl, hmem⟩
      by_cases hthr : loc.raw_content_len > 5242880 + 80 * 28
      · exact hthr
      · exfalso
        simp only [build_transformer_chain, if_neg hthr] at hmem
        rcases henc : loc.encryption_key with _ | k <;> rw [henc] at hmem <;>
          simp at hmem
    · intro hthr
      refine ⟨blocklist, ?_⟩
      simp only [build_transformer_chain, if_pos hthr]
      simp
  · constructor
    · rintro ⟨k', hmem⟩
      simp only [build_transformer_chain] at hmem
      rcases henc : loc.encryption_key with _ | k
      · exfalso
        rw [henc] at hmem
        by_cases hthr : loc.raw_content_len > 5242880 + 80 * 28 <;>
          [rw [if_pos hthr] at hmem; rw [if_neg hthr] at hmem] <;> simp at hmem
      · simp [henc]
    · intro hs
      rcases henc : loc.encryption_key with _ | k
      · exact absurd hs (by simp [henc])
      · refine ⟨k, ?_⟩
        simp only [build_transformer_chain]
        rw [henc]
        by_cases hthr : loc.raw_content_len > 5242880 + 80 * 28 <;>
          [rw [if_pos hthr]; rw [if_neg hthr]] <;> simp

/-! ## C8: ULID codec round trip -/

theorem decode_digit_aux_spec (l : List Char) :
    ∀ (k : Nat) (c : Char) (i : Nat), decode_digit_aux l k c = some i →
      ∃ j, j < l.length ∧ i = k + j ∧ l.getD j '0' = c := by
  induction l with
  | nil => intro k c i h; exact Option.noConfusion h
  | cons a rest ih =>
    intro k c i h
    simp only [decode_digit_aux] at h
    by_cases hc : c = a
    · rw [if_pos hc] at h
      injection h with h1
      exact ⟨0, by simp, by omega, by simp [hc]⟩
    · rw [if_neg hc] at h
      obtain ⟨j, hj, hi, hg⟩ := ih (k + 1) c i h
      exact ⟨j + 1, by simpa using hj, by omega, by simpa using hg⟩

theorem decode_digit_lt (c : Char) (i : Nat) (h : decode_digit c = some i) :
    i < 32 := by
  obtain ⟨j, hj, hi, _⟩ := decode_digit_aux_spec ulid_alphabet 0 c i h
  have hlen : ulid_alphabet.length = 32 := by decide
  omega

theorem decode_encode_digit (c : Char) (i : Nat) (h : decode_digit c = some i) :
    encode_digit i = c := by
  obtain ⟨j, hj, hi, hg⟩ := decode_digit_aux_spec ulid_alphabet 0 c i h
  have hij : i = j := by omega
  subst hij
  exact hg

theorem encode_decode_digit (d : Nat) (h : d < 32) :
    decode_digit (encode_digit d) = some d := by
  interval_cases d <;> decide

theorem digit_vals_spec : ∀ (cs : List Char) (ds : List Nat),
    digit_vals cs = some ds →
    ds.length = cs.length ∧ ds.map encode_digit = cs ∧ ∀ d ∈ ds, d < 32 := by
  intro cs
  induction cs with
  | nil =>
    intro ds h
    have h2 : some ([] : List Nat) = some ds := h
    injection h2 with h3
    subst h3
    simp
  | cons c rest ih =>
    intro ds h
    simp only [digit_vals, List.mapM_cons] at h
    rcases hc : decode_digit c with _ | d
    · rw [hc] at h; exact Option.noConfusion h
    · rw [hc] at h
      rcases hr : rest.mapM decode_digit with _ | ds'
      · rw [hr] at h; exact Option.noConfusion h
      · rw [hr] at h
        have h2 : some (d :: ds') = some ds := h
        injection h2 with h3
        subst h3
        obtain ⟨hl, hm, hb⟩ := ih ds' hr
        refine ⟨by simp [hl], by simp [hm, decode_encode_digit c d hc], ?_⟩
        intro x hx
        rcases List.mem_cons.mp hx with rfl | hx
        · exact decode_digit_lt c x hc
        · exact hb x hx

theorem digit_vals_not_mem (cs : List Char) (ds : List Nat) (c : Char)
    (h : digit_vals cs = some ds) (hc : decode_digit c = none) : c ∉ cs := by
  intro hmem
  obtain ⟨_, hmap, hbound⟩ := digit_vals_spec cs ds h
  rw [← hmap] at hmem
  obtain ⟨d, hd, hdc⟩ := List.mem_map.mp hmem
  have hsome := encode_decode_digit d (hbound d hd)
  rw [hdc, hc] at hsome
  exact Option.noConfusion hsome

theorem val_of_digits_from (a : Nat) (ds : List Nat) :
    ds.foldl (fun x d => x * 32 + d) a = a * 32 ^ ds.length + val_of_digits ds := by
  induction ds generalizing a with
  | nil => simp [val_of_digits]
  | cons d rest ih =>
    simp only [List.foldl_cons, List.length_cons]
    rw [ih (a * 32 + d)]
    have hv : val_of_digits (d :: rest) = d * 32 ^ rest.length + val_of_digits rest := by
      simp only [val_of_digits, List.foldl_cons]
      have := ih (0 * 32 + d)
      simpa using this
    rw [hv]
    ring

theorem val_of_digits_cons (d : Nat) (rest : List Nat) :
    val_of_digits (d :: rest) = d * 32 ^ rest.length + val_of_digits rest := by
  simp only [val_of_digits, List.foldl_cons]
  have := val_of_digits_from (0 * 32 + d) rest
  simpa [val_of_digits] using this

theorem val_of_digits_lt (ds : List Nat) (h : ∀ d ∈ ds, d < 32) :
    val_of_digits ds < 32 ^ ds.length := by
  induction ds with
  | nil => simp [val_of_digits]
  | cons d rest ih =>
    rw [val_of_digits_cons]
    have hd := h d (List.mem_cons_self _ _)
    have hr := ih (fun x hx => h x (List.mem_cons_of_mem _ hx))
    have h1 : d * 32 ^ rest.length + val_of_digits rest < (d + 1) * 32 ^ rest.length := by
      rw [add_mul, one_mul]; omega
    have h2 : (d + 1) * 32 ^ rest.length ≤ 32 * 32 ^ rest.length :=
      Nat.mul_le_mul_right _ (by omega)
    have h3 : (32 : Nat) * 32 ^ rest.length = 32 ^ (d :: rest).length := by
      rw [List.length_cons, pow_succ]; ring
    omega

theorem ulid_encode_val (ds : List Nat) (h : ∀ d ∈ ds, d < 32) :
    ulid_encode_digits (val_of_digits ds) ds.length = ds := by
  induction ds using List.reverseRecOn with
  | nil => simp [ulid_encode_digits, val_of_digits]
  | append_singleton rest d ih =>
    have hval : val_of_digits (rest ++ [d]) = val_of_digits rest * 32 + d := by
      simp [val_of_digits, List.foldl_append]
    have hd : d < 32 := h d (by simp)
    have hrest : ∀ x ∈ rest, x < 32 := fun x hx => h x (by simp [hx])
    rw [hval, List.length_append, List.length_singleton]
    simp only [ulid_encode_digits]
    have h1 : (val_of_digits rest * 32 + d) / 32 = val_of_digits rest := by omega
    have h2 : (val_of_digits rest * 32 + d) % 32 = d := by omega
    rw [h1, h2, ih hrest]

theorem ulid_decode_encode (cs : List Char) (h : ulid_canonical cs = true) :
    ∃ v, ulid_decode_chars cs = some v ∧ ulid_to_chars v = cs := by
  unfold ulid_canonical at h
  rw [Bool.and_eq_true] at h
  obtain ⟨hlen, hrest⟩ := h
  have hlen' : cs.length = 26 := by simpa using hlen
  rcases hds : digit_vals cs with _ | ds
  · rw [hds] at hrest; simp at hrest
  · rw [hds] at hrest
    cases ds with
    | nil => simp at hrest
    | cons d0 rest =>
      have hd0 : d0 < 8 := by simpa using hrest
      obtain ⟨hmaplen, hmap, hbound⟩ := digit_vals_spec cs (d0 :: rest) hds
      have hrlen : rest.length = 25 := by
        rw [hlen'] at hmaplen
        simpa using hmaplen
      have hvlt : val_of_digits (d0 :: rest) < 2 ^ 128 := by
        rw [val_of_digits_cons, hrlen]
        have hrb : val_of_digits rest < 32 ^ rest.length :=
          val_of_digits_lt rest (fun x hx => hbound x (List.mem_cons_of_mem _ hx))
        rw [hrlen] at hrb
        have h1 : d0 * 32 ^ 25 + val_of_digits rest < (d0 + 1) * 32 ^ 25 := by
          rw [add_mul, one_mul]; omega
        have h2 : (d0 + 1) * (32 : Nat) ^ 25 ≤ 8 * 32 ^ 25 :=
          Nat.mul_le_mul_right _ (by omega)
        have h3 : (8 : Nat) * 32 ^ 25 = 2 ^ 128 := by norm_num
        omega
      refine ⟨val_of_digits (d0 :: rest), ?_, ?_⟩
      · unfold ulid_decode_chars
        rw [if_pos hlen', hds]
        show some (val_of_digits (d0 :: rest) % 2 ^ 128) =
          some (val_of_digits (d0 :: rest))
        rw [Nat.mod_eq_of_lt hvlt]
      · unfold ulid_to_chars
        have h26 : (26 : Nat) = (d0 :: rest).length := by
          rw [hmaplen, hlen']
        rw [h26, ulid_encode_val (d0 :: rest) hbound, hmap]

theorem string_data_append (a b : String) : (a ++ b).data = a.data ++ b.data := rfl

/-- C8: `Intent::serialize ∘ Intent::deserialize` is the identity on every
well-formed intent string `"<canonical-ULID>_<b>"` with action byte
`b ∈ {0,1,2,3,4}`. -/
theorem c8_intent_serialize_deserialize_id (u d : List Char)
    (hu : ulid_canonical u = true)
    (hd : d ∈ [['0'], ['1'], ['2'], ['3'], ['4']]) :
    ∃ i : IntentS, intent_deserialize (String.mk (u ++ '_' :: d)) = .ok i ∧
      intent_serialize i = String.mk (u ++ '_' :: d) := by
  obtain ⟨v, hdec, henc⟩ := ulid_decode_encode u hu
  have hserial : ulid_to_string v = String.mk u := by
    rw [ulid_to_string, henc]
  have hds : ∃ ds, digit_vals u = some ds := by
    unfold ulid_canonical at hu
    rw [Bool.and_eq_true] at hu
    rcases h : digit_vals u with _ | ds
    · rw [h] at hu; simp at hu
    · exact ⟨ds, rfl⟩
  obtain ⟨ds, hds⟩ := hds
  have hnous : '_' ∉ u := digit_vals_not_mem u ds '_' hds rfl
  have hsplit : rust_split_char '_' (u ++ '_' :: d) = [u, d] := by
    rw [rust_split_char_append '_' u d hnous,
      rust_split_char_not_mem '_' d (by fin_cases hd <;> decide)]
  fin_cases hd
  · refine ⟨⟨v, Action.All⟩, ?_, ?_⟩
    · show intent_deserialize_chars (u ++ '_' :: ['0']) = _
      simp only [intent_deserialize_chars, hsplit, hdec]
      rfl
    · simp only [intent_serialize, action_to_u8, hserial]
      refine String.ext ?_
      show u ++ ['_'] ++ ['0'] = u ++ '_' :: ['0']
      rw [List.append_assoc]
      rfl
  · refine ⟨⟨v, Action.CreateSecrets⟩, ?_, ?_⟩
    · show intent_deserialize_chars (u ++ '_' :: ['1']) = _
      simp only [intent_deserialize_chars, hsplit, hdec]
      rfl
    · simp only [intent_serialize, action_to_u8, hserial]
      refine String.ext ?_
      show u ++ ['_'] ++ ['1'] = u ++ '_' :: ['1']
      rw [List.append_assoc]
      rfl
  · refine ⟨⟨v, Action.Impersonate⟩, ?_, ?_⟩
    · show intent_deserialize_chars (u ++ '_' :: ['2']) = _
      simp only [intent_deserialize_chars, hsplit, hdec]
      rfl
    · simp only [intent_serialize, action_to_u8, hserial]
      refine String.ext ?_
      show u ++ ['_'] ++ ['2'] = u ++ '_' :: ['2']
      rw [List.append_assoc]
      rfl
  · refine ⟨⟨v, Action.FetchInfo⟩, ?_, ?_⟩
    · show intent_deserialize_chars (u ++ '_' :: ['3']) = _
      simp only [intent_deserialize_chars, hsplit, hdec]
      rfl
    · simp only [intent_serialize, action_to_u8, hserial]
      refine String.ext ?_
      show u ++ ['_'] ++ ['3'] = u ++ '_' :: ['3']
      rw [List.append_assoc]
      rfl
  · refine ⟨⟨v, Action.DpExchange⟩, ?_, ?_⟩
    · show intent_deserialize_chars (u ++ '_' :: ['4']) = _
      simp only [intent_deserialize_chars, hsplit, hdec]
      rfl
    · simp only [intent_serialize, action_to_u8, hserial]
      refine String.ext ?_
      show u ++ ['_'] ++ ['4'] = u ++ '_' :: ['4']
      rw [List.append_assoc]
      rfl

/-- C8 witness: the round trip at a concrete canonical ULID and action
byte 3. -/
theorem c8_intent_round_trip_witness :
    ∃ i : IntentS,
      intent_deserialize
        (String.mk ("01ARZ3NDEKTSV4RRFFQ69G5FAV".data ++ '_' :: ['3'])) =
        .ok i ∧
      intent_serialize i =
        String.mk ("01ARZ3NDEKTSV4RRFFQ69G5FAV".data ++ '_' :: ['3']) :=
  c8_intent_serialize_deserialize_id "01ARZ3NDEKTSV4RRFFQ69G5FAV".data ['3']
    (by decide) (by decide)

end DataProxy
